import Mathlib

/-!
Verification of the anet upload/download server (`src/server.js`).

A shallow embedding of the HTTP API handlers of `server.js`:

* the persisted index (`storage/index.json`, with its `uploads` and `codes`
  maps) and the filesystem (per-session staging directories holding
  `{index}.part` files, and the final artifact files) are modelled as
  association lists inside a `ServerState`;
* each API handler (`init`, `status`, `chunk`, `complete`, `meta`, download)
  becomes a pure function from a `ServerState` (plus the request data and,
  where the source consumes randomness or clock values, explicit oracle
  parameters) to a response and a new `ServerState`;
* chunk payloads are byte lists (`List Nat`); JS numbers occurring as chunk
  indices and sizes are modelled as `Int` (the handlers only guard them with
  `Number.isNaN`, modelled by an `Option Int` where `none` plays NaN).
-/

/-- Byte strings (file and chunk contents), as lists of byte values. -/
abbrev Bytes := List Nat

/-! Association lists.

`storage/index.json` holds two JSON objects (`uploads`, `codes`); the staging
directory maps chunk indices to part files.  All are modelled as association
lists with the usual lookup / insert-or-replace / remove operations. -/

/-- Lookup, as JS object property read: first binding of the key, if any. -/
def lookupA {κ α : Type} [DecidableEq κ] : List (κ × α) → κ → Option α
  | [], _ => none
  | (k', v) :: rest, k => if k' = k then some v else lookupA rest k

/-- Insert-or-replace, as JS object property write: replace the binding of `k`, or append it. -/
def putA {κ α : Type} [DecidableEq κ] : List (κ × α) → κ → α → List (κ × α)
  | [], k, v => [(k, v)]
  | (k', v') :: rest, k, v =>
    if k' = k then (k, v) :: rest else (k', v') :: putA rest k v

/-- Deletion (`delete obj[k]` / `fs.unlink` / `fs.rm` of one entry). -/
def removeA {κ α : Type} [DecidableEq κ] : List (κ × α) → κ → List (κ × α)
  | [], _ => []
  | (k', v) :: rest, k =>
    if k' = k then removeA rest k else (k', v) :: removeA rest k

/-! Data model.

One record of `db.uploads` (see `server.js` lines 208-220, plus the
`filePath` / `completedAt` fields set by the complete handler). -/

structure Session where
  uploadId : String
  code : String
  fingerprint : Option String
  fileName : String
  fileSize : Int
  mimeType : String
  totalChunks : Int
  chunkSize : Int
  uploadedChunks : List Int
  complete : Bool
  createdAt : String
  filePath : Option String := none
  completedAt : Option String := none
deriving DecidableEq

/-- Whole observable server state: the persisted index (`uploads`,
`codes`), the staging area (`storage/tmp/{uploadId}/{index}.part`, one inner
association list of parts per session directory), and the artifact files
(`storage/files/{code}.bin`, keyed here by their file name). -/
structure ServerState where
  uploads : List (String × Session)
  codes : List (String × String)
  staging : List (String × List (Int × Bytes))
  files : List (String × Bytes)
deriving DecidableEq

/-- Staging directory contents for one session (empty list if the directory
is absent; the handlers that care about absence check `lookupA` directly). -/
def stagingOf (st : ServerState) (uploadId : String) : List (Int × Bytes) :=
  (lookupA st.staging uploadId).getD []

/-! Small JS helpers. -/

/-- Alphabet of `randomCode` (`server.js` lines 117-120): the 32-character alphabet,
excluding the visually ambiguous `0`, `O`, `1`, `I`. -/
def codeChars : List Char :=
  ['A','B','C','D','E','F','G','H','J','K','L','M','N','P','Q','R','S','T',
   'U','V','W','X','Y','Z','2','3','4','5','6','7','8','9']

/-- Model of `randomCode(8)`: eight independent draws from `codeChars`.  The random
source `Math.floor(Math.random() * chars.length)` is abstracted as an oracle
`roll : Nat → Nat`; `% 32` keeps each draw in range like the source does. -/
def randomCode (roll : Nat → Nat) : String :=
  String.mk ((List.range 8).map (fun i => codeChars.getD (roll i % 32) 'A'))

/-- Retry loop: `while (db.codes[code]) code = randomCode();` over an
explicit list of successive draws; `none` models the loop running out of the
supplied randomness without finding a fresh code (the JS loop would keep
drawing). -/
def pickCode (codes : List (String × String)) : List String → Option String
  | [] => none
  | c :: rest => if (lookupA codes c).isSome then pickCode codes rest else some c

/-- Truthiness (JS) of an optional string field (`undefined`, `null` and `""`
are falsy). -/
def truthyS : Option String → Bool
  | none => false
  | some s => !(s == "")

/-- Truthiness (JS) of an optional numeric field (`undefined`, `null` and `0`
are falsy; NaN never reaches these guards in the claims considered). -/
def truthyI : Option Int → Bool
  | none => false
  | some n => !(n == 0)

/-- Model of `Array.prototype.sort((a, b) => a - b)`: ascending numeric sort. -/
def jsSort (l : List Int) : List Int := l.insertionSort (· ≤ ·)

/-- Model of `String.prototype.toUpperCase()` on the ASCII strings used as codes
(character-by-character uppercasing). -/
def jsToUpper (s : String) : String := String.mk (s.data.map Char.toUpper)

/-- Model of the ranged `fs.createReadStream` call: the bytes at offsets
`start .. e` inclusive, truncated at end of file. -/
def streamSlice (data : Bytes) (start e : Int) : Bytes :=
  (data.drop start.toNat).take (e - start + 1).toNat

/-! Handlers. -/

/-- Request body of `POST /api/upload/init` (`server.js` line 190); absent
JSON fields are `none`. -/
structure InitBody where
  fileName : Option String := none
  fileSize : Option Int := none
  mimeType : Option String := none
  totalChunks : Option Int := none
  chunkSize : Option Int := none
  fingerprint : Option String := none
  uploadId : Option String := none
deriving DecidableEq

inductive InitResp where
  /-- Status 400: a required field is falsy (`server.js` line 192). -/
  | invalidRequest
  /-- Status 200, resume: `{uploadId, code, uploadedChunks}` (lines 197-201). -/
  | resumed (uploadId code : String) (uploadedChunks : List Int)
  /-- Status 200, create: `{uploadId, code, uploadedChunks: []}` (line 224). -/
  | created (uploadId code : String)
deriving DecidableEq

def InitResp.status : InitResp → Nat
  | .invalidRequest => 400
  | .resumed _ _ _ => 200
  | .created _ _ => 200

/-- Resume test: `uploadId && db.uploads[uploadId]` (line 195). -/
def resumeTarget (st : ServerState) (body : InitBody) : Option (String × Session) :=
  match body.uploadId with
  | none => none
  | some uid =>
    if uid = "" then none
    else match lookupA st.uploads uid with
      | none => none
      | some r => some (uid, r)

/-- Handler of `POST /api/upload/init` (`server.js` lines 188-225).  `newId` stands for
`randomId(20)`, `draws` for the successive `randomCode()` outcomes, `now` for
`new Date().toISOString()`.  The result is `none` only when the code-retry
loop exhausts `draws` (in JS it would draw forever). -/
def handleInit (st : ServerState) (body : InitBody) (newId : String)
    (draws : List (Nat → Nat)) (now : String) : Option (InitResp × ServerState) :=
  if !(truthyS body.fileName && truthyI body.fileSize &&
       truthyI body.totalChunks && truthyI body.chunkSize) then
    some (.invalidRequest, st)
  else
    match resumeTarget st body with
    | some (uid, r) => some (.resumed uid r.code r.uploadedChunks, st)
    | none =>
      match pickCode st.codes (draws.map randomCode) with
      | none => none
      | some code =>
        let record : Session := {
          uploadId := newId
          code := code
          fingerprint := body.fingerprint
          fileName := body.fileName.getD ""
          fileSize := body.fileSize.getD 0
          mimeType :=
            match body.mimeType with
            | some s => if s = "" then "application/octet-stream" else s
            | none => "application/octet-stream"
          totalChunks := body.totalChunks.getD 0
          chunkSize := body.chunkSize.getD 0
          uploadedChunks := []
          complete := false
          createdAt := now }
        let st' : ServerState := {
          uploads := putA st.uploads newId record
          codes := putA st.codes code newId
          staging :=
            -- `ensureDir` leaves an existing directory alone
            match lookupA st.staging newId with
            | some _ => st.staging
            | none => putA st.staging newId []
          files := st.files }
        some (.created newId code, st')

inductive StatusResp where
  | notFound
  | ok (uploadId code : String) (complete : Bool)
      (uploadedChunks : List Int) (totalChunks : Int)
deriving DecidableEq

/-- Handler of `GET /api/upload/status/:id` (`server.js` lines 227-239); read-only. -/
def handleStatus (st : ServerState) (uploadId : String) : StatusResp :=
  match lookupA st.uploads uploadId with
  | none => .notFound
  | some r => .ok uploadId r.code r.complete r.uploadedChunks r.totalChunks

inductive ChunkResp where
  /-- Status 400: `Number.isNaN(idx)` (line 244). -/
  | invalidIndex
  /-- Status 404: unknown session (line 247). -/
  | notFound
  /-- Status 500: `fsp.writeFile` into a missing staging directory throws,
  caught at line 327. -/
  | ioError
  /-- Status 200, `{ok: true}` (line 256). -/
  | ok
deriving DecidableEq

def ChunkResp.status : ChunkResp → Nat
  | .invalidIndex => 400
  | .notFound => 404
  | .ioError => 500
  | .ok => 200

/-- Handler of `POST /api/upload/:id/chunk?index=N` (`server.js` lines 241-257).
`idx` is the result of `Number(url.searchParams.get('index'))`, with `none`
playing NaN.  The body is written to `{idx}.part` first; the index is then
recorded in `uploadedChunks` (push + numeric sort) only if absent. -/
def handleChunk (st : ServerState) (uploadId : String) (idx : Option Int)
    (body : Bytes) : ChunkResp × ServerState :=
  match idx with
  | none => (.invalidIndex, st)
  | some i =>
    match lookupA st.uploads uploadId with
    | none => (.notFound, st)
    | some record =>
      match lookupA st.staging uploadId with
      | none => (.ioError, st)
      | some parts =>
        let st1 : ServerState :=
          { st with staging := putA st.staging uploadId (putA parts i body) }
        if record.uploadedChunks.contains i then (.ok, st1)
        else
          let record' :=
            { record with uploadedChunks := jsSort (record.uploadedChunks ++ [i]) }
          (.ok, { st1 with uploads := putA st1.uploads uploadId record' })

/-- Model of `mergeChunks` (`server.js` lines 159-184), unrolled: starting at index
`start`, consume `n` part files.  Each part found is appended to the output
and deleted from staging (`removeFileSafe` inside the `end` handler); a
missing part makes the read stream error and the whole promise reject,
leaving the parts already consumed deleted and the output partial.
Returns (staging left over, bytes written to the output, success). -/
def mergeRun (parts : List (Int × Bytes)) (start : Int) :
    Nat → List (Int × Bytes) × Bytes × Bool
  | 0 => (parts, [], true)
  | n + 1 =>
    match lookupA parts start with
    | none => (parts, [], false)
    | some b =>
      let rest := mergeRun (removeA parts start) (start + 1) n
      (rest.1, b ++ rest.2.1, rest.2.2)

inductive CompleteResp where
  /-- Status 404: unknown session (line 263). -/
  | notFound
  /-- Status 200: already complete, no side effect (line 264). -/
  | okAlready (code : String)
  /-- Status 400: fewer recorded chunks than `totalChunks` (lines 265-267). -/
  | incomplete
  /-- Status 200, `{ok: true, code}` after a successful merge (line 275). -/
  | ok (code : String)
  /-- Status 500: the merge promise rejected, caught at line 327. -/
  | mergeError
deriving DecidableEq

/-- Handler of `POST /api/upload/:id/complete` (`server.js` lines 259-276).  On merge
success the record is marked complete, the staging directory is removed
(`removeDirSafe`) and the index rewritten; on merge failure the error
propagates before any of those writes, so the index is untouched, but the
part files already consumed by the merge are gone and a partial output file
exists. -/
def handleComplete (st : ServerState) (uploadId : String) (now : String) :
    CompleteResp × ServerState :=
  match lookupA st.uploads uploadId with
  | none => (.notFound, st)
  | some record =>
    if record.complete then (.okAlready record.code, st)
    else if (record.uploadedChunks.length : Int) < record.totalChunks then
      (.incomplete, st)
    else
      let filePath := record.code ++ ".bin"
      let res := mergeRun (stagingOf st uploadId) 0 record.totalChunks.toNat
      if res.2.2 then
        let record' := { record with
          complete := true
          filePath := some filePath
          completedAt := some now }
        (.ok record.code,
          { st with
            files := putA st.files filePath res.2.1
            staging := removeA st.staging uploadId
            uploads := putA st.uploads uploadId record' })
      else
        (.mergeError,
          { st with
            files := putA st.files filePath res.2.1
            staging := putA st.staging uploadId res.1 })

inductive MetaResp where
  /-- Status 404: code not in `db.codes` (line 282). -/
  | notFoundCode
  /-- Status 404: session missing or not complete (line 284). -/
  | notReady
  /-- Status 200, `{code, fileName, fileSize, mimeType}` (lines 285-290). -/
  | ok (code fileName : String) (fileSize : Int) (mimeType : String)
deriving DecidableEq

/-- Handler of `GET /api/download/:code/meta` (`server.js` lines 278-291); the supplied
code is uppercased before the lookup. -/
def handleMeta (st : ServerState) (codeRaw : String) : MetaResp :=
  let code := jsToUpper codeRaw
  match lookupA st.codes code with
  | none => .notFoundCode
  | some uploadId =>
    match lookupA st.uploads uploadId with
    | none => .notReady
    | some r =>
      if r.complete then .ok code r.fileName r.fileSize r.mimeType
      else .notReady

inductive DownloadResp where
  /-- Plain 404 (lines 297, 299). -/
  | notFound
  /-- Status 500: `fsp.stat` on a missing/unset `filePath` throws, caught
  at line 327. -/
  | ioError
  /-- Status 206 with `Content-Range: bytes start-e/total` and
  `Content-Length: contentLength` (lines 312-317). -/
  | ranged (start e total contentLength : Int) (body : Bytes)
  /-- Status 200 with `Content-Length: contentLength` (lines 320-321). -/
  | full (contentLength : Int) (body : Bytes)
deriving DecidableEq

/-- Handler of `GET /api/download/:code` (`server.js` lines 293-323).  `range` is the
parsed `Range: bytes=start-end` header: `none` when absent, otherwise
`(Number(startStr), endStr)` where the end is `none` when empty (the source
then uses `total - 1`).  The supplied code is uppercased before lookup. -/
def handleDownload (st : ServerState) (codeRaw : String)
    (range : Option (Int × Option Int)) : DownloadResp :=
  let code := jsToUpper codeRaw
  match lookupA st.codes code with
  | none => .notFound
  | some uploadId =>
    match lookupA st.uploads uploadId with
    | none => .notFound
    | some r =>
      if !r.complete then .notFound
      else
        match r.filePath with
        | none => .ioError
        | some fp =>
          match lookupA st.files fp with
          | none => .ioError
          | some data =>
            let total : Int := data.length
            match range with
            | some (start, endOpt) =>
              let e := match endOpt with | some e => e | none => total - 1
              .ranged start e total (e - start + 1) (streamSlice data start e)
            | none => .full total data

/-! Concrete states used by witnesses and counterexamples. -/

/-- Empty server state (fresh `index.json`). -/
def stEmpty : ServerState := { uploads := [], codes := [], staging := [], files := [] }

/-- An incomplete 2-chunk session with nothing uploaded yet. -/
def sessionA : Session := {
  uploadId := "u1", code := "ABCD2345", fingerprint := none,
  fileName := "a.txt", fileSize := 3, mimeType := "text/plain",
  totalChunks := 2, chunkSize := 2, uploadedChunks := [], complete := false,
  createdAt := "t0" }

def stA : ServerState := {
  uploads := [("u1", sessionA)]
  codes := [("ABCD2345", "u1")]
  staging := [("u1", [])]
  files := [] }

/-- An incomplete 2-chunk session whose recorded indices are `[0, 5]` (the
chunk handler accepted the out-of-range index 5), with parts staged at 0
and 5 but not at 1. -/
def sessionC3 : Session := {
  uploadId := "u3", code := "EFGH2345", fingerprint := none,
  fileName := "b.txt", fileSize := 3, mimeType := "text/plain",
  totalChunks := 2, chunkSize := 2, uploadedChunks := [0, 5],
  complete := false, createdAt := "t0" }

def stC3 : ServerState := {
  uploads := [("u3", sessionC3)]
  codes := [("EFGH2345", "u3")]
  staging := [("u3", [(0, [1, 2]), (5, [9])])]
  files := [] }

/-- A session already marked complete. -/
def sessionC4 : Session := {
  uploadId := "u4", code := "ZZZZZZZZ", fingerprint := none,
  fileName := "c.txt", fileSize := 1, mimeType := "text/plain",
  totalChunks := 1, chunkSize := 1, uploadedChunks := [0], complete := true,
  createdAt := "t0", filePath := some "ZZZZZZZZ.bin", completedAt := some "t1" }

def stC4 : ServerState := {
  uploads := [("u4", sessionC4)]
  codes := [("ZZZZZZZZ", "u4")]
  staging := []
  files := [("ZZZZZZZZ.bin", [1])] }

/-- A valid init body naming the completed session `u4` as resume target. -/
def bodyC4 : InitBody := {
  fileName := some "a.txt", fileSize := some 10,
  totalChunks := some 1, chunkSize := some 10, uploadId := some "u4" }

/-- A completed session with a 4-byte artifact. -/
def sessionC6 : Session := {
  uploadId := "u6", code := "WXYZ6789", fingerprint := none,
  fileName := "f.bin", fileSize := 4, mimeType := "application/octet-stream",
  totalChunks := 1, chunkSize := 4, uploadedChunks := [0], complete := true,
  createdAt := "t0", filePath := some "WXYZ6789.bin", completedAt := some "t1" }

def stC6 : ServerState := {
  uploads := [("u6", sessionC6)]
  codes := [("WXYZ6789", "u6")]
  staging := []
  files := [("WXYZ6789.bin", [10, 11, 12, 13])] }

/-- An incomplete 2-chunk session with both chunks staged (staged in reverse
arrival order) and both indices recorded. -/
def sessionC1 : Session := {
  uploadId := "u0", code := "MNPQ2345", fingerprint := none,
  fileName := "d.bin", fileSize := 4, mimeType := "application/octet-stream",
  totalChunks := 2, chunkSize := 2, uploadedChunks := [0, 1],
  complete := false, createdAt := "t0" }

def stC1 : ServerState := {
  uploads := [("u0", sessionC1)]
  codes := [("MNPQ2345", "u0")]
  staging := [("u0", [(1, [3, 4]), (0, [1, 2])])]
  files := [] }

/-- An init body with a negative `fileSize` (truthy in JS). -/
def bodyC7 : InitBody := {
  fileName := some "a", fileSize := some (-5),
  totalChunks := some 2, chunkSize := some 1 }

/-- A fully valid init body with no resume id. -/
def bodyC9 : InitBody := {
  fileName := some "a", fileSize := some 2,
  totalChunks := some 2, chunkSize := some 1 }

/-! Association-list lemmas. -/

theorem lookupA_putA_self {κ α : Type} [DecidableEq κ]
    (l : List (κ × α)) (k : κ) (v : α) :
    lookupA (putA l k v) k = some v := by
  induction l with
  | nil => simp [putA, lookupA]
  | cons hd tl ih =>
    obtain ⟨k', v'⟩ := hd
    by_cases h : k' = k
    · simp [putA, h, lookupA]
    · simp [putA, h, lookupA, ih]

theorem lookupA_putA_ne {κ α : Type} [DecidableEq κ]
    (l : List (κ × α)) (k k' : κ) (v : α) (h : k' ≠ k) :
    lookupA (putA l k v) k' = lookupA l k' := by
  induction l with
  | nil => simp [putA, lookupA, Ne.symm h]
  | cons hd tl ih =>
    obtain ⟨k'', v''⟩ := hd
    by_cases hk : k'' = k
    · subst hk
      simp [putA, lookupA, Ne.symm h]
    · simp [putA, hk, lookupA, ih]

theorem lookupA_removeA_ne {κ α : Type} [DecidableEq κ]
    (l : List (κ × α)) (k k' : κ) (h : k' ≠ k) :
    lookupA (removeA l k) k' = lookupA l k' := by
  induction l with
  | nil => simp [removeA]
  | cons hd tl ih =>
    obtain ⟨k'', v''⟩ := hd
    by_cases hk : k'' = k
    · subst hk
      simp [removeA, lookupA, Ne.symm h, ih]
    · simp [removeA, hk, lookupA, ih]

theorem lookupA_removeA_self {κ α : Type} [DecidableEq κ]
    (l : List (κ × α)) (k : κ) :
    lookupA (removeA l k) k = none := by
  induction l with
  | nil => simp [removeA, lookupA]
  | cons hd tl ih =>
    obtain ⟨k'', v''⟩ := hd
    by_cases hk : k'' = k
    · simp [removeA, hk, ih]
    · simp [removeA, hk, lookupA, ih]

theorem putA_putA_self {κ α : Type} [DecidableEq κ]
    (l : List (κ × α)) (k : κ) (v1 v2 : α) :
    putA (putA l k v1) k v2 = putA l k v2 := by
  induction l with
  | nil => simp [putA]
  | cons hd tl ih =>
    obtain ⟨k', v'⟩ := hd
    by_cases h : k' = k
    · simp [putA, h]
    · simp [putA, h, ih]

/-! Merge lemmas. -/

/-- When every index `base .. base+n-1` has a staged part, the merge loop
succeeds and its output is the concatenation of the parts in ascending
index order. -/
theorem mergeRun_complete (n : Nat) :
    ∀ (parts : List (Int × Bytes)) (base : Int) (chunk : Nat → Bytes),
    (∀ i : Nat, i < n → lookupA parts (base + (i : Int)) = some (chunk i)) →
    (mergeRun parts base n).2 = (((List.range n).map chunk).flatten, true) := by
  induction n with
  | zero =>
    intro parts base chunk _
    simp [mergeRun]
  | succ m ih =>
    intro parts base chunk h
    have h0 : lookupA parts base = some (chunk 0) := by
      have := h 0 (Nat.succ_pos m)
      simpa using this
    have h' : ∀ i : Nat, i < m →
        lookupA (removeA parts base) (base + 1 + (i : Int)) = some (chunk (i + 1)) := by
      intro i hi
      rw [lookupA_removeA_ne _ _ _ (by omega)]
      have := h (i + 1) (by omega)
      rw [← this]
      congr 1
      push_cast
      ring
    have hrec := ih (removeA parts base) (base + 1) (fun i => chunk (i + 1)) h'
    simp only [mergeRun, h0]
    rw [hrec]
    simp [List.range_succ_eq_map, List.map_map, Function.comp_def, Nat.succ_eq_add_one]

/-! Claims. -/

/-- C1: for every session whose chunks `0 .. totalChunks-1` are all
staged (however and in whatever order they got there), the complete handler
answers `{ok: true, code}` and writes an artifact `{code}.bin` whose bytes
are the exact concatenation of the staged chunk payloads in ascending index
order.  The staging area abstracts over upload order, so the conclusion is
independent of the order in which the chunks arrived. -/
theorem complete_merges_in_ascending_order
    (st : ServerState) (uid now : String) (r : Session) (chunk : Nat → Bytes)
    (hrec : lookupA st.uploads uid = some r)
    (hinc : r.complete = false)
    (hlen : r.totalChunks ≤ (r.uploadedChunks.length : Int))
    (hstaged : ∀ i : Nat, i < r.totalChunks.toNat →
      lookupA (stagingOf st uid) (i : Int) = some (chunk i)) :
    (handleComplete st uid now).1 = CompleteResp.ok r.code ∧
    lookupA (handleComplete st uid now).2.files (r.code ++ ".bin") =
      some (((List.range r.totalChunks.toNat).map chunk).flatten) := by
  have hmerge := mergeRun_complete r.totalChunks.toNat (stagingOf st uid) 0 chunk
    (fun i hi => by simpa using hstaged i hi)
  have h2 : (mergeRun (stagingOf st uid) 0 r.totalChunks.toNat).2.2 = true := by
    rw [hmerge]
  have h1 : (mergeRun (stagingOf st uid) 0 r.totalChunks.toNat).2.1 =
      ((List.range r.totalChunks.toNat).map chunk).flatten := by
    rw [hmerge]
  unfold handleComplete
  rw [hrec]
  simp only [hinc, Bool.false_eq_true, if_false, not_lt.mpr hlen, h2, if_true]
  exact ⟨trivial, by rw [lookupA_putA_self, h1]⟩

/-- Witness for C1: a 2-chunk session whose parts `[1,2]` and `[3,4]` were
staged in reverse order merges to the artifact `[1,2,3,4]`. -/
theorem complete_merges_in_ascending_order_witness :
    (handleComplete stC1 "u0" "t2").1 = CompleteResp.ok "MNPQ2345" ∧
    lookupA (handleComplete stC1 "u0" "t2").2.files ("MNPQ2345" ++ ".bin") =
      some (((List.range 2).map (fun i => if i = 0 then [1, 2] else [3, 4])).flatten) :=
  complete_merges_in_ascending_order stC1 "u0" "t2" sessionC1
    (fun i => if i = 0 then [1, 2] else [3, 4])
    (by decide) (by decide) (by decide) (by decide)

/-- C3 counterexample: a 2-chunk session whose staging holds parts at
indices 0 and 5 but not 1 (the unchecked chunk handler recorded index 5, so
the completion precondition passes).  The merge fails at index 1, the
handler answers 500 and `complete` stays `false` — but the part at index 0,
already consumed by the merge, has been deleted from the staging area, so
the staging area is *not* left intact. -/
theorem merge_failure_deletes_consumed_parts_cex :
    (handleComplete stC3 "u3" "t2").1 = CompleteResp.mergeError ∧
    lookupA (stagingOf stC3 "u3") 0 = some [1, 2] ∧
    lookupA (stagingOf (handleComplete stC3 "u3" "t2").2 "u3") 0 = none ∧
    (lookupA (handleComplete stC3 "u3" "t2").2.uploads "u3").map
      (fun r => r.complete) = some false := by
  decide

/-- C3 amended: if the merge invoked by the complete handler fails, the
session record is untouched (in particular `complete` remains `false`), so
completion may be retried — but the staging area is not left intact: each
part already consumed by the failed merge has been deleted
(`removeFileSafe` runs as soon as a part is fully read), so those chunks
must be re-uploaded first. -/
theorem merge_failure_leaves_record_incomplete
    (st : ServerState) (uid now : String) (r : Session)
    (hrec : lookupA st.uploads uid = some r)
    (hinc : r.complete = false)
    (hlen : r.totalChunks ≤ (r.uploadedChunks.length : Int))
    (hfail : (mergeRun (stagingOf st uid) 0 r.totalChunks.toNat).2.2 = false) :
    (handleComplete st uid now).1 = CompleteResp.mergeError ∧
    (handleComplete st uid now).2.uploads = st.uploads := by
  unfold handleComplete
  rw [hrec]
  simp only [hinc, Bool.false_eq_true, if_false, not_lt.mpr hlen, hfail]
  exact ⟨trivial, trivial⟩

/-- Witness for the amended C3 at the state of the counterexample. -/
theorem merge_failure_leaves_record_incomplete_witness :
    (handleComplete stC3 "u3" "t2").2.uploads = stC3.uploads := by
  exact (merge_failure_leaves_record_incomplete stC3 "u3" "t2" sessionC3
    (by decide) (by decide) (by decide) (by decide)).2

/-- C2 counterexample: on the 2-chunk session of `stA`, a chunk POST
with `index=5` — outside `[0, 2)` — is answered 200 `{ok:true}` (not 400
`IndexOutOfRange`), its bytes are staged at slot 5, and 5 is recorded into
`uploadedChunks`.  The handler only rejects a NaN index. -/
theorem chunk_out_of_range_accepted_cex :
    (handleChunk stA "u1" (some 5) [7]).1.status = 200 ∧
    lookupA (stagingOf (handleChunk stA "u1" (some 5) [7]).2 "u1") 5 = some [7] ∧
    (lookupA (handleChunk stA "u1" (some 5) [7]).2.uploads "u1").map
      (fun r => (r.totalChunks, r.uploadedChunks)) = some (2, [5]) := by
  decide

/-- C2 amended: the chunk handler validates the index only against NaN
(`Number.isNaN`): a NaN index gets 400 and leaves the state unchanged, while
*every* numeric index — in `[0, totalChunks)` or not — is accepted for a
known session with a staging directory: the handler answers 200, stages the
bytes at that index, and the resulting record's `uploadedChunks` contains
the index. -/
theorem chunk_index_unchecked
    (st : ServerState) (uid : String) (r : Session) (parts : List (Int × Bytes))
    (i : Int) (b : Bytes)
    (hrec : lookupA st.uploads uid = some r)
    (hst : lookupA st.staging uid = some parts) :
    handleChunk st uid none b = (ChunkResp.invalidIndex, st) ∧
    (handleChunk st uid (some i) b).1 = ChunkResp.ok ∧
    lookupA (stagingOf (handleChunk st uid (some i) b).2 uid) i = some b ∧
    ∃ r', lookupA (handleChunk st uid (some i) b).2.uploads uid = some r' ∧
      i ∈ r'.uploadedChunks := by
  refine ⟨rfl, ?_⟩
  unfold handleChunk
  rw [hrec, hst]
  by_cases hc : r.uploadedChunks.contains i
  · simp only [hc, if_true]
    refine ⟨by trivial, ?_, ?_⟩
    · simp [stagingOf, lookupA_putA_self]
    · exact ⟨r, hrec, by simpa using hc⟩
  · simp only [hc, if_false]
    refine ⟨by trivial, ?_, ?_⟩
    · simp [stagingOf, lookupA_putA_self]
    · refine ⟨_, lookupA_putA_self _ _ _, ?_⟩
      show i ∈ jsSort (r.uploadedChunks ++ [i])
      simp only [jsSort]
      rw [(List.perm_insertionSort _ (r.uploadedChunks ++ [i])).mem_iff]
      simp

/-- Witness for the amended C2 on the concrete session of `stA` with the
in-range index 1. -/
theorem chunk_index_unchecked_witness :
    handleChunk stA "u1" none [9] = (ChunkResp.invalidIndex, stA) ∧
    (handleChunk stA "u1" (some 1) [9]).1 = ChunkResp.ok ∧
    lookupA (stagingOf (handleChunk stA "u1" (some 1) [9]).2 "u1") 1 = some [9] ∧
    ∃ r', lookupA (handleChunk stA "u1" (some 1) [9]).2.uploads "u1" = some r' ∧
      (1 : Int) ∈ r'.uploadedChunks :=
  chunk_index_unchecked stA "u1" sessionA [] 1 [9] (by decide) (by decide)

/-- C4 counterexample: `stC4` holds the session `u4` already marked
`complete`; an init request resuming `u4` is answered with the *existing*
session (same code `ZZZZZZZZ`, its recorded chunks) and the state is
unchanged — no fresh session and no new code are allocated, contrary to the
claim that resume applies only while incomplete. -/
theorem init_resumes_completed_session_cex :
    handleInit stC4 bodyC4 "nid" [] "t2" =
      some (InitResp.resumed "u4" "ZZZZZZZZ" [0], stC4) ∧
    (lookupA stC4.uploads "u4").map (fun r => r.complete) = some true := by
  decide

/-- C4 amended: whenever the init body passes field validation and names
an `uploadId` present in the uploads index, the handler returns that
session's current code and `uploadedChunks` and leaves the state unchanged —
*regardless of the session's `complete` flag* (the resume branch never
inspects it). -/
theorem init_resume_ignores_completion
    (st : ServerState) (body : InitBody) (newId : String)
    (draws : List (Nat → Nat)) (now uid : String) (r : Session)
    (hval : (truthyS body.fileName && truthyI body.fileSize &&
             truthyI body.totalChunks && truthyI body.chunkSize) = true)
    (huid : body.uploadId = some uid) (hne : uid ≠ "")
    (hrec : lookupA st.uploads uid = some r) :
    handleInit st body newId draws now =
      some (InitResp.resumed uid r.code r.uploadedChunks, st) := by
  simp [handleInit, resumeTarget, huid, hne, hrec, hval]

/-- Witness for the amended C4: resuming the live incomplete session of
`stA` returns its code and (empty) chunk list unchanged. -/
theorem init_resume_ignores_completion_witness :
    handleInit stA
      { fileName := some "a.txt", fileSize := some 3, totalChunks := some 2,
        chunkSize := some 2, uploadId := some "u1" } "nid" [] "t2" =
      some (InitResp.resumed "u1" "ABCD2345" [], stA) :=
  init_resume_ignores_completion stA
    { fileName := some "a.txt", fileSize := some 3, totalChunks := some 2,
      chunkSize := some 2, uploadId := some "u1" } "nid" [] "t2" "u1" sessionA
    (by decide) (by decide) (by decide) (by decide)

/-- C5 counterexample: accepting the chunk POST `index=-3` on the
2-chunk session of `stA` records `-3` into `uploadedChunks`, so the
invariant `uploadedChunks ⊆ [0, totalChunks)` is violated by the chunk
operation (acceptChunk performs no range check). -/
theorem uploadedChunks_range_invariant_cex :
    (lookupA (handleChunk stA "u1" (some (-3)) [7]).2.uploads "u1").map
      (fun r => (r.totalChunks, r.uploadedChunks)) = some (2, [-3]) ∧
    ¬ ((0 : Int) ≤ -3) := by
  decide

/-- C5 amended: the chunk handler (the only operation that mutates
`uploadedChunks`) keeps the recorded indices duplicate-free and sorted
ascending, but does not confine them to `[0, totalChunks)`: any non-NaN
index can be recorded.  The subset invariant holds only for clients that
send in-range indices. -/
theorem uploadedChunks_nodup_sorted_preserved
    (st : ServerState) (uid : String) (idx : Option Int) (b : Bytes)
    (r r' : Session)
    (hrec : lookupA st.uploads uid = some r)
    (hnd : r.uploadedChunks.Nodup)
    (hsort : r.uploadedChunks.Sorted (· ≤ ·))
    (hrec' : lookupA (handleChunk st uid idx b).2.uploads uid = some r') :
    r'.uploadedChunks.Nodup ∧ r'.uploadedChunks.Sorted (· ≤ ·) := by
  have hsame : ∀ h : lookupA st.uploads uid = some r',
      r'.uploadedChunks.Nodup ∧ r'.uploadedChunks.Sorted (· ≤ ·) := by
    intro h
    rw [hrec] at h
    cases h
    exact ⟨hnd, hsort⟩
  cases idx with
  | none => exact hsame hrec'
  | some i =>
    simp only [handleChunk, hrec] at hrec'
    cases hstg : lookupA st.staging uid with
    | none =>
      simp only [hstg] at hrec'
      exact hsame hrec'
    | some parts =>
      simp only [hstg] at hrec'
      by_cases hc : r.uploadedChunks.contains i
      · simp only [hc, if_true] at hrec'
        exact hsame hrec'
      · simp only [hc, Bool.false_eq_true, if_false] at hrec'
        rw [lookupA_putA_self] at hrec'
        cases hrec'
        have hmem : i ∉ r.uploadedChunks := by
          simpa using hc
        constructor
        · show (jsSort (r.uploadedChunks ++ [i])).Nodup
          simp only [jsSort]
          refine ((List.perm_insertionSort _ _).nodup_iff).mpr ?_
          simp [List.nodup_append, hnd, hmem]
        · show (jsSort (r.uploadedChunks ++ [i])).Sorted (· ≤ ·)
          simp only [jsSort]
          exact List.sorted_insertionSort _ _

/-- Witness for the amended C5 after accepting index 7 on the session of
`stA` (whose recorded list `[]` is trivially duplicate-free and sorted). -/
theorem uploadedChunks_nodup_sorted_preserved_witness :
    (Session.uploadedChunks
        { uploadId := "u1", code := "ABCD2345", fingerprint := none,
          fileName := "a.txt", fileSize := 3, mimeType := "text/plain",
          totalChunks := 2, chunkSize := 2, uploadedChunks := [7],
          complete := false, createdAt := "t0" }).Nodup ∧
    (Session.uploadedChunks
        { uploadId := "u1", code := "ABCD2345", fingerprint := none,
          fileName := "a.txt", fileSize := 3, mimeType := "text/plain",
          totalChunks := 2, chunkSize := 2, uploadedChunks := [7],
          complete := false, createdAt := "t0" }).Sorted (· ≤ ·) :=
  uploadedChunks_nodup_sorted_preserved stA "u1" (some 7) [8] sessionA _
    (by decide) (by decide) (by decide) (by decide)

/-- C6 counterexample: `stC6` holds a completed session with a 4-byte
artifact.  A request for `bytes=0-99` is *not* validated against the
artifact size: the handler answers 206 with `Content-Length: 100` although
the body it can stream is only the 4 existing bytes — no range validation
takes place. -/
theorem download_range_unvalidated_cex :
    handleDownload stC6 "WXYZ6789" (some (0, some 99)) =
      DownloadResp.ranged 0 99 4 100 [10, 11, 12, 13] ∧
    ¬ ((99 : Int) < 4) ∧
    ([10, 11, 12, 13] : Bytes).length ≠ 100 := by
  decide

/-- Length of the streamed slice for an in-bounds range. -/
theorem streamSlice_length (data : Bytes) (start e : Int)
    (h0 : 0 ≤ start) (hse : start ≤ e) (he : e < (data.length : Int)) :
    ((streamSlice data start e).length : Int) = e - start + 1 := by
  simp only [streamSlice, List.length_take, List.length_drop]
  omega

/-- C6 amended: for a completed session the download handler performs no
validation of the requested range against the artifact's size — it always
answers 206 with `Content-Length = end - start + 1` and the bytes the file
actually has in that window.  When the range happens to be within bounds
(`0 ≤ start ≤ end < size`) this yields exactly the artifact's bytes from
`start` to `end` with matching content length; without a range header the
handler serves 200 with the full artifact and its true length. -/
theorem download_range_and_full
    (st : ServerState) (codeRaw uid : String) (r : Session) (fp : String)
    (data : Bytes) (start e : Int)
    (hcode : lookupA st.codes (jsToUpper codeRaw) = some uid)
    (hrec : lookupA st.uploads uid = some r)
    (hc : r.complete = true)
    (hfp : r.filePath = some fp)
    (hdata : lookupA st.files fp = some data) :
    handleDownload st codeRaw none = DownloadResp.full data.length data ∧
    handleDownload st codeRaw (some (start, some e)) =
      DownloadResp.ranged start e data.length (e - start + 1)
        (streamSlice data start e) ∧
    (0 ≤ start → start ≤ e → e < (data.length : Int) →
      ((streamSlice data start e).length : Int) = e - start + 1) := by
  refine ⟨?_, ?_, fun h0 hse he => streamSlice_length data start e h0 hse he⟩ <;>
    simp [handleDownload, hcode, hrec, hc, hfp, hdata]

/-- Witness for the amended C6 on the 4-byte artifact of `stC6` with the
in-bounds range `bytes=1-2`. -/
theorem download_range_and_full_witness :
    handleDownload stC6 "WXYZ6789" none = DownloadResp.full 4 [10, 11, 12, 13] ∧
    handleDownload stC6 "WXYZ6789" (some (1, some 2)) =
      DownloadResp.ranged 1 2 4 2 [11, 12] ∧
    ((0 : Int) ≤ 1 → (1 : Int) ≤ 2 → (2 : Int) < 4 →
      ((streamSlice [10, 11, 12, 13] 1 2).length : Int) = 2 - 1 + 1) := by
  have h := download_range_and_full stC6 "WXYZ6789" "u6" sessionC6 "WXYZ6789.bin"
    [10, 11, 12, 13] 1 2 (by decide) (by decide) (by decide) (by decide) (by decide)
  exact ⟨h.1, h.2.1, h.2.2⟩

/-- C7 counterexample: an init body whose `fileSize` is the negative
number `-5` (truthy in JS) passes validation and a session is created — the
handler does not reject non-positive values, only falsy ones. -/
theorem init_accepts_negative_fileSize_cex :
    ((handleInit stEmpty bodyC7 "nid" [fun _ => 0] "t").map Prod.fst =
      some (InitResp.created "nid" "AAAAAAAA")) ∧
    bodyC7.fileSize = some (-5) ∧
    ¬ ((0 : Int) < -5) := by
  decide

/-- C7 amended: init answers 400 `InvalidRequest` exactly when one of
`fileName`, `fileSize`, `totalChunks`, `chunkSize` is falsy in the JS sense
(absent, the empty string, or zero); any truthy values — including negative
numbers — pass validation. -/
theorem init_validation_is_truthiness
    (st : ServerState) (body : InitBody) (newId : String)
    (draws : List (Nat → Nat)) (now : String) :
    (handleInit st body newId draws now).map Prod.fst =
        some InitResp.invalidRequest ↔
      (truthyS body.fileName && truthyI body.fileSize &&
       truthyI body.totalChunks && truthyI body.chunkSize) = false := by
  unfold handleInit
  cases hb : (truthyS body.fileName && truthyI body.fileSize &&
      truthyI body.totalChunks && truthyI body.chunkSize) with
  | false => simp [hb]
  | true =>
    simp only [hb, Bool.not_true, Bool.false_eq_true, if_false]
    constructor
    · intro h
      exfalso
      rcases hres : resumeTarget st body with _ | ⟨uid, rr⟩
      · rcases hpick : pickCode st.codes (draws.map randomCode) with _ | c <;>
          simp [hres, hpick] at h
      · simp [hres] at h
    · intro h
      cases h

/-- C8: accepting the same `(sessionId, index)` twice — with identical
or different bytes — succeeds, leaves the uploads index exactly as after the
first acceptance (so `uploadedChunks` is unchanged, in particular in size),
and the staged content for that index is the most recent write. -/
theorem chunk_accept_idempotent
    (st : ServerState) (uid : String) (i : Int) (b1 b2 : Bytes)
    (r : Session) (parts : List (Int × Bytes))
    (hrec : lookupA st.uploads uid = some r)
    (hst : lookupA st.staging uid = some parts) :
    (handleChunk (handleChunk st uid (some i) b1).2 uid (some i) b2).1 =
      ChunkResp.ok ∧
    lookupA
      (stagingOf (handleChunk (handleChunk st uid (some i) b1).2 uid (some i) b2).2 uid)
      i = some b2 ∧
    (handleChunk (handleChunk st uid (some i) b1).2 uid (some i) b2).2.uploads =
      (handleChunk st uid (some i) b1).2.uploads ∧
    (lookupA (handleChunk (handleChunk st uid (some i) b1).2 uid (some i) b2).2.uploads uid).map
        (fun s => s.uploadedChunks.length) =
      (lookupA (handleChunk st uid (some i) b1).2.uploads uid).map
        (fun s => s.uploadedChunks.length) := by
  have hmemSorted : i ∈ jsSort (r.uploadedChunks ++ [i]) := by
    simp only [jsSort]
    rw [(List.perm_insertionSort _ (r.uploadedChunks ++ [i])).mem_iff]
    simp
  by_cases hc : r.uploadedChunks.contains i
  · -- first acceptance finds the index already recorded
    have hmem : i ∈ r.uploadedChunks := by simpa using hc
    have e1 : handleChunk st uid (some i) b1 =
        (ChunkResp.ok,
          { st with staging := putA st.staging uid (putA parts i b1) }) := by
      simp [handleChunk, hrec, hst, hmem]
    rw [e1]
    have e2 : handleChunk
        { st with staging := putA st.staging uid (putA parts i b1) } uid (some i) b2 =
        (ChunkResp.ok,
          { st with staging := putA st.staging uid (putA (putA parts i b1) i b2) }) := by
      simp [handleChunk, hrec, hmem, lookupA_putA_self, putA_putA_self]
    rw [e2]
    refine ⟨rfl, ?_, rfl, rfl⟩
    simp [stagingOf, lookupA_putA_self]
  · -- first acceptance records the index
    have hmem : i ∉ r.uploadedChunks := by simpa using hc
    have e1 : handleChunk st uid (some i) b1 =
        (ChunkResp.ok,
          { st with
            staging := putA st.staging uid (putA parts i b1)
            uploads := putA st.uploads uid
              { r with uploadedChunks := jsSort (r.uploadedChunks ++ [i]) } }) := by
      simp [handleChunk, hrec, hst, hmem]
    rw [e1]
    have e2 : handleChunk
        { st with
          staging := putA st.staging uid (putA parts i b1)
          uploads := putA st.uploads uid
            { r with uploadedChunks := jsSort (r.uploadedChunks ++ [i]) } }
        uid (some i) b2 =
        (ChunkResp.ok,
          { st with
            staging := putA st.staging uid (putA (putA parts i b1) i b2)
            uploads := putA st.uploads uid
              { r with uploadedChunks := jsSort (r.uploadedChunks ++ [i]) } }) := by
      simp [handleChunk, lookupA_putA_self, hmemSorted, putA_putA_self]
    rw [e2]
    refine ⟨rfl, ?_, rfl, rfl⟩
    simp [stagingOf, lookupA_putA_self]

/-- Witness for C8: uploading index 0 twice with different bytes on the
session of `stA`. -/
theorem chunk_accept_idempotent_witness :
    (handleChunk (handleChunk stA "u1" (some 0) [1]).2 "u1" (some 0) [2]).1 =
      ChunkResp.ok ∧
    lookupA
      (stagingOf (handleChunk (handleChunk stA "u1" (some 0) [1]).2 "u1" (some 0) [2]).2 "u1")
      0 = some [2] ∧
    (handleChunk (handleChunk stA "u1" (some 0) [1]).2 "u1" (some 0) [2]).2.uploads =
      (handleChunk stA "u1" (some 0) [1]).2.uploads ∧
    (lookupA (handleChunk (handleChunk stA "u1" (some 0) [1]).2 "u1" (some 0) [2]).2.uploads "u1").map
        (fun s => s.uploadedChunks.length) =
      (lookupA (handleChunk stA "u1" (some 0) [1]).2.uploads "u1").map
        (fun s => s.uploadedChunks.length) :=
  chunk_accept_idempotent stA "u1" 0 [1] [2] sessionA [] (by decide) (by decide)

/-- Any position of the code alphabet (with the source's in-range index and
the irrelevant default) is a member of the alphabet. -/
theorem getD_mem_codeChars (n : Nat) : codeChars.getD n 'A' ∈ codeChars := by
  by_cases h : n < codeChars.length
  · rw [List.getD_eq_getElem _ _ h]
    exact List.getElem_mem h
  · rw [List.getD_eq_default _ _ (Nat.le_of_not_lt h)]
    decide

/-- Codes produced by `randomCode` always have 8 characters. -/
theorem randomCode_length (roll : Nat → Nat) : (randomCode roll).length = 8 := by
  simp [randomCode, String.length]

/-- Every character of a `randomCode` draw comes from the alphabet. -/
theorem randomCode_chars (roll : Nat → Nat) :
    ∀ ch ∈ (randomCode roll).data, ch ∈ codeChars := by
  intro ch hch
  simp only [randomCode, List.mem_map, List.mem_range] at hch
  obtain ⟨i, _, rfl⟩ := hch
  exact getD_mem_codeChars _

/-- If the retry loop returns a code, that code is absent from the code
index and is one of the supplied draws. -/
theorem pickCode_spec (codes : List (String × String)) :
    ∀ (l : List String) (c : String), pickCode codes l = some c →
      lookupA codes c = none ∧ c ∈ l := by
  intro l
  induction l with
  | nil =>
    intro c h
    simp [pickCode] at h
  | cons hd tl ih =>
    intro c h
    by_cases hh : (lookupA codes hd).isSome
    · simp only [pickCode, hh, if_true] at h
      obtain ⟨h1, h2⟩ := ih c h
      exact ⟨h1, List.mem_cons_of_mem _ h2⟩
    · simp only [pickCode, hh, Bool.false_eq_true, if_false] at h
      cases h
      exact ⟨Option.not_isSome_iff_eq_none.mp hh, List.mem_cons_self _ _⟩

/-- C9: when init creates a session, the issued code is an 8-character
string over the fixed alphabet (hence contains none of `0`, `O`, `1`, `I`),
was absent from the code index before the call (the retry loop redraws on
any collision), and — assuming every existing session's code already maps
back to it in the code index — the same back-pointer invariant holds after
the call, so the code-to-session mapping stays injective: two sessions with
the same code are the same session. -/
theorem init_code_uniqueness
    (st : ServerState) (body : InitBody) (newId : String)
    (draws : List (Nat → Nat)) (now : String) (nid c : String) (st' : ServerState)
    (hcons : ∀ uid s, lookupA st.uploads uid = some s →
      lookupA st.codes s.code = some uid)
    (hres : handleInit st body newId draws now =
      some (InitResp.created nid c, st')) :
    c.length = 8 ∧
    (∀ ch ∈ c.data, ch ∈ codeChars) ∧
    ('0' ∉ c.data ∧ 'O' ∉ c.data ∧ '1' ∉ c.data ∧ 'I' ∉ c.data) ∧
    lookupA st.codes c = none ∧
    (∀ uid s, lookupA st'.uploads uid = some s →
      lookupA st'.codes s.code = some uid) ∧
    (∀ uid1 uid2 s1 s2, lookupA st'.uploads uid1 = some s1 →
      lookupA st'.uploads uid2 = some s2 → s1.code = s2.code → uid1 = uid2) := by
  unfold handleInit at hres
  by_cases hval : (!(truthyS body.fileName && truthyI body.fileSize &&
      truthyI body.totalChunks && truthyI body.chunkSize)) = true
  · rw [if_pos hval] at hres
    simp at hres
  · rw [if_neg hval] at hres
    rcases hrt : resumeTarget st body with _ | ⟨uid0, r0⟩
    · rw [hrt] at hres
      rcases hpick : pickCode st.codes (draws.map randomCode) with _ | code
      · rw [hpick] at hres
        simp at hres
      · rw [hpick] at hres
        simp only [Option.some.injEq, Prod.mk.injEq, InitResp.created.injEq] at hres
        obtain ⟨⟨hnid, hcode⟩, hst'⟩ := hres
        subst hnid
        subst hcode
        subst hst'
        obtain ⟨hfresh, hdrawn⟩ := pickCode_spec st.codes _ code hpick
        obtain ⟨roll, _, hcr⟩ := List.mem_map.mp hdrawn
        have hlen : code.length = 8 := by rw [← hcr]; exact randomCode_length roll
        have hchars : ∀ ch ∈ code.data, ch ∈ codeChars := by
          rw [← hcr]; exact randomCode_chars roll
        have hconsNew : ∀ uid s,
            lookupA (putA st.uploads newId
              { uploadId := newId, code := code, fingerprint := body.fingerprint,
                fileName := body.fileName.getD "", fileSize := body.fileSize.getD 0,
                mimeType := match body.mimeType with
                  | some s => if s = "" then "application/octet-stream" else s
                  | none => "application/octet-stream",
                totalChunks := body.totalChunks.getD 0,
                chunkSize := body.chunkSize.getD 0, uploadedChunks := [],
                complete := false, createdAt := now, filePath := none,
                completedAt := none }) uid = some s →
            lookupA (putA st.codes code newId) s.code = some uid := by
          intro uid s hs
          by_cases huid : uid = newId
          · subst huid
            rw [lookupA_putA_self] at hs
            cases hs
            exact lookupA_putA_self _ _ _
          · rw [lookupA_putA_ne _ _ _ _ huid] at hs
            have hold := hcons uid s hs
            have hne : s.code ≠ code := by
              intro hcc
              rw [hcc, hfresh] at hold
              cases hold
            rw [lookupA_putA_ne _ _ _ _ hne]
            exact hold
        refine ⟨hlen, hchars, ?_, hfresh, hconsNew, ?_⟩
        · refine ⟨?_, ?_, ?_, ?_⟩ <;>
            exact fun hmem => absurd (hchars _ hmem) (by decide)
        · intro uid1 uid2 s1 s2 h1 h2 hcc
          have e1 := hconsNew uid1 s1 h1
          have e2 := hconsNew uid2 s2 h2
          rw [hcc] at e1
          rw [e1] at e2
          exact Option.some.inj e2
    · rw [hrt] at hres
      simp at hres

/-- State produced by the successful creation of the C9 witness. -/
def stC9after : ServerState :=
  ((handleInit stEmpty bodyC9 "nid" [fun _ => 0] "t").getD
    (InitResp.invalidRequest, stEmpty)).2

/-- Witness for C9: on the empty state with the constant-zero roll, init
creates a session with the fresh 8-character code `AAAAAAAA` and the
resulting code-to-session mapping is injective. -/
theorem init_code_uniqueness_witness :
    ("AAAAAAAA" : String).length = 8 ∧
    lookupA stEmpty.codes "AAAAAAAA" = none ∧
    (∀ uid1 uid2 s1 s2, lookupA stC9after.uploads uid1 = some s1 →
      lookupA stC9after.uploads uid2 = some s2 → s1.code = s2.code →
      uid1 = uid2) := by
  have h := init_code_uniqueness stEmpty bodyC9 "nid" [fun _ => 0] "t" "nid"
    "AAAAAAAA" stC9after
    (by intro uid s hh; simp [stEmpty, lookupA] at hh)
    (by decide)
  exact ⟨h.1, h.2.2.2.1, h.2.2.2.2.2⟩

/-- C10: both code-redeeming handlers (meta and download) uppercase the
supplied code before looking it up, so any spelling `s` whose uppercasing is
the issued code `c` (itself a fixed point of uppercasing, as all issued
codes are: the alphabet has only uppercase letters and digits) is handled
exactly like `c` itself. -/
theorem code_lookup_case_insensitive
    (st : ServerState) (s c : String) (range : Option (Int × Option Int))
    (hs : jsToUpper s = c) (hc : jsToUpper c = c) :
    handleMeta st s = handleMeta st c ∧
    handleDownload st s range = handleDownload st c range := by
  refine ⟨?_, ?_⟩ <;> simp only [handleMeta, handleDownload, hs, hc]

/-- Witness for C10: the lowercase spelling `wxyz6789` of the issued code
`WXYZ6789` resolves to the same completed session, whose metadata is
served. -/
theorem code_lookup_case_insensitive_witness :
    (handleMeta stC6 "wxyz6789" = handleMeta stC6 "WXYZ6789" ∧
     handleDownload stC6 "wxyz6789" none = handleDownload stC6 "WXYZ6789" none) ∧
    handleMeta stC6 "wxyz6789" =
      MetaResp.ok "WXYZ6789" "f.bin" 4 "application/octet-stream" := by
  refine ⟨code_lookup_case_insensitive stC6 "wxyz6789" "WXYZ6789" none
    (by decide) (by decide), ?_⟩
  decide
